import Mathlib

/-!
Verification of the scroll-and-extract engine in `data_extraction.py`.

Strings are modelled as `List Char`.  Python's `str.split()` (split on runs
of whitespace, dropping empty tokens) is `pySplit`; JavaScript's
`String.prototype.trim()` is `jsTrim`.  A Python `IndexError` raised by
`parts[0]` on an empty token list is modelled by `Option`: `none` is the
raised exception.  `max_products` is a `Nat` where `0` stands for the falsy
values (`None` and `0`), which the code treats identically:
`self.max_products and …` skips the limit check and
`self.max_products or float('inf')` removes the ceiling.
-/

namespace DataExtraction

/-- Closed-interval test on a code point. -/
def between (lo hi n : Nat) : Bool :=
  lo ≤ n && n ≤ hi

/-- Characters CPython's `str.isspace()` accepts — the class `str.split()`
splits on.  Generated from CPython: `0x9`-`0xd`, `0x1c`-`0x20` (note the
information-separator controls), NEL `0x85`, NBSP, and the Unicode space
and line/paragraph separators. -/
def pyIsSpace (c : Char) : Bool :=
  let n := c.toNat
  between 0x9 0xd n || between 0x1c 0x20 n || n = 0x85 || n = 0xa0 ||
    n = 0x1680 || between 0x2000 0x200a n || between 0x2028 0x2029 n ||
    n = 0x202f || n = 0x205f || n = 0x3000

/-- Characters JavaScript's `String.prototype.trim()` strips (ECMA-262
WhiteSpace plus LineTerminator): `0x9`-`0xd`, space, NBSP, the Zs
separators, LS/PS and the BOM — but not `0x1c`-`0x1f` and not `0x85`,
which Python does treat as whitespace. -/
def jsIsSpace (c : Char) : Bool :=
  let n := c.toNat
  between 0x9 0xd n || n = 0x20 || n = 0xa0 || n = 0x1680 ||
    between 0x2000 0x200a n || between 0x2028 0x2029 n || n = 0x202f ||
    n = 0x205f || n = 0x3000 || n = 0xfeff

/-- Characters CPython's `str.isdigit()` accepts: the Unicode decimal
digits plus the Numeric_Type=Digit characters (superscripts, circled
digits, ...).  Generated from CPython. -/
def pyIsDigit (c : Char) : Bool :=
  let n := c.toNat
  between 0x30 0x39 n || between 0xb2 0xb3 n || n = 0xb9 ||
    between 0x660 0x669 n || between 0x6f0 0x6f9 n ||
    between 0x7c0 0x7c9 n || between 0x966 0x96f n ||
    between 0x9e6 0x9ef n || between 0xa66 0xa6f n ||
    between 0xae6 0xaef n || between 0xb66 0xb6f n ||
    between 0xbe6 0xbef n || between 0xc66 0xc6f n ||
    between 0xce6 0xcef n || between 0xd66 0xd6f n ||
    between 0xde6 0xdef n || between 0xe50 0xe59 n ||
    between 0xed0 0xed9 n || between 0xf20 0xf29 n ||
    between 0x1040 0x1049 n || between 0x1090 0x1099 n ||
    between 0x1369 0x1371 n || between 0x17e0 0x17e9 n ||
    between 0x1810 0x1819 n || between 0x1946 0x194f n ||
    between 0x19d0 0x19da n || between 0x1a80 0x1a89 n ||
    between 0x1a90 0x1a99 n || between 0x1b50 0x1b59 n ||
    between 0x1bb0 0x1bb9 n || between 0x1c40 0x1c49 n ||
    between 0x1c50 0x1c59 n || n = 0x2070 || between 0x2074 0x2079 n ||
    between 0x2080 0x2089 n || between 0x2460 0x2468 n ||
    between 0x2474 0x247c n || between 0x2488 0x2490 n || n = 0x24ea ||
    between 0x24f5 0x24fd n || n = 0x24ff || between 0x2776 0x277e n ||
    between 0x2780 0x2788 n || between 0x278a 0x2792 n ||
    between 0xa620 0xa629 n || between 0xa8d0 0xa8d9 n ||
    between 0xa900 0xa909 n || between 0xa9d0 0xa9d9 n ||
    between 0xa9f0 0xa9f9 n || between 0xaa50 0xaa59 n ||
    between 0xabf0 0xabf9 n || between 0xff10 0xff19 n ||
    between 0x104a0 0x104a9 n || between 0x10a40 0x10a43 n ||
    between 0x10d30 0x10d39 n || between 0x10e60 0x10e68 n ||
    between 0x11052 0x1105a n || between 0x11066 0x1106f n ||
    between 0x110f0 0x110f9 n || between 0x11136 0x1113f n ||
    between 0x111d0 0x111d9 n || between 0x112f0 0x112f9 n ||
    between 0x11450 0x11459 n || between 0x114d0 0x114d9 n ||
    between 0x11650 0x11659 n || between 0x116c0 0x116c9 n ||
    between 0x11730 0x11739 n || between 0x118e0 0x118e9 n ||
    between 0x11950 0x11959 n || between 0x11c50 0x11c59 n ||
    between 0x11d50 0x11d59 n || between 0x11da0 0x11da9 n ||
    between 0x16a60 0x16a69 n || between 0x16ac0 0x16ac9 n ||
    between 0x16b50 0x16b59 n || between 0x1d7ce 0x1d7ff n ||
    between 0x1e140 0x1e149 n || between 0x1e2f0 0x1e2f9 n ||
    between 0x1e950 0x1e959 n || between 0x1f100 0x1f10a n ||
    between 0x1fbf0 0x1fbf9 n

/-- Worker for `pySplit`: `cur` holds the chars of the current token, reversed. -/
def splitAux : List Char → List Char → List (List Char)
  | [], cur => if cur.isEmpty then [] else [cur.reverse]
  | c :: rest, cur =>
    if pyIsSpace c then
      if cur.isEmpty then splitAux rest [] else cur.reverse :: splitAux rest []
    else
      splitAux rest (c :: cur)

/-- Python `value.split()`: split on whitespace runs, no empty tokens. -/
def pySplit (s : List Char) : List (List Char) :=
  splitAux s []

/-- The per-token test in `_clean_value`:
`any(char.isdigit() for char in part) or part.startswith('$')`. -/
def isValueToken (part : List Char) : Bool :=
  part.any pyIsDigit ||
    (match part with
     | '$' :: _ => true
     | _ => false)

/-- Model of `DataExtractor._clean_value` (lines 604-616).  The guard is Python's
`" " in value`, i.e. it looks for the space character only.  `none` models
the `IndexError` raised by `parts[0]` when the split yields no token. -/
def cleanValue (value : List Char) : Option (List Char) :=
  if value.contains ' ' then
    match (pySplit value).find? isValueToken with
    | some part => some part
    | none => (pySplit value).head?
  else
    some value

/-- Model of JS `String.prototype.trim()`, stripping the ECMA-262 class
from both ends.  Its whitespace differs from Python's: a string of
`0x1c`-class controls and spaces survives this trim yet is all-whitespace
to `str.split()`. -/
def jsTrim (v : List Char) : List Char :=
  ((v.dropWhile jsIsSpace).reverse.dropWhile jsIsSpace).reverse

/-- A product record as assembled by the in-page JavaScript of
`_extract_products_from_current_view`. -/
structure Product where
  name : List Char
  id : List Char
  price : List Char
  mass_kg : List Char
  score : List Char
deriving DecidableEq

/-- A rendered card: each field is the raw text the per-field DOM lookup
found (`none` when no lookup matched, leaving the JS property undefined). -/
structure RawCard where
  name : Option (List Char)
  id : Option (List Char)
  price : Option (List Char)
  mass_kg : Option (List Char)
  score : Option (List Char)
deriving DecidableEq

/-- The JS per-card assembly: every extraction path stores a trimmed text
(each branch ends in `.trim()` or a whitespace-free regex match), and the
card is pushed only if all five properties are truthy, i.e. present and
nonempty (`if (product.name && product.id && …)`). -/
def cardToProduct (c : RawCard) : Option Product :=
  match c.name, c.id, c.price, c.mass_kg, c.score with
  | some n, some i, some pr, some m, some sc =>
    if !(jsTrim n).isEmpty && !(jsTrim i).isEmpty && !(jsTrim pr).isEmpty &&
        !(jsTrim m).isEmpty && !(jsTrim sc).isEmpty then
      some (Product.mk (jsTrim n) (jsTrim i) (jsTrim pr) (jsTrim m) (jsTrim sc))
    else
      none
  | _, _, _, _, _ => none

/-- The list returned by `page.evaluate(…)`: all rendered cards, keeping
only the complete ones. -/
def extractView (cards : List RawCard) : List Product :=
  cards.filterMap cardToProduct

/-- Lines 596-599: `_clean_value` applied to the id, price, mass_kg and
score fields of an accepted candidate (the name is left as is).  `none`
propagates an `IndexError` raised by any of the four calls. -/
def cleanProduct (p : Product) : Option Product :=
  match cleanValue p.id, cleanValue p.price, cleanValue p.mass_kg, cleanValue p.score with
  | some i, some pr, some m, some sc => some (Product.mk p.name i pr m sc)
  | _, _, _, _ => none

/-- Model of the bound test, Python `len(self.data) < (self.max_products or float('inf'))`: a falsy ceiling
(`None` or `0`, both modelled by `0`) imposes no bound at all. -/
def withinLimit (maxp count : Nat) : Bool :=
  if maxp = 0 then true else decide (count < maxp)

/-- Model of `extracted_ids.add(…)`: Python set insertion, modelled on a
duplicate-free list. -/
def insertId (ids : List (List Char)) (i : List Char) : List (List Char) :=
  if ids.contains i then ids else ids ++ [i]

/-- The merge loop of `_extract_products_from_current_view` (lines 591-602):
a candidate is accepted when its raw id is not among the recorded ids and
the ceiling allows it; its fields are then cleaned, the cleaned record is
appended to `data` and the cleaned id is added to the set. -/
def mergeBatch (maxp : Nat) : List Product → List Product → List (List Char) →
    Option (List Product × List (List Char))
  | [], data, ids => some (data, ids)
  | p :: rest, data, ids =>
    if !(ids.contains p.id) && withinLimit maxp data.length then
      match cleanProduct p with
      | some q => mergeBatch maxp rest (data ++ [q]) (insertId ids q.id)
      | none => none
    else
      mergeBatch maxp rest data ids

/-- Mutable state of the pagination loop in `_extract_product_data`. -/
structure LoopState where
  data : List Product
  extractedIds : List (List Char)
  lastHeight : Nat
  scrollAttempts : Nat
  noNewItems : Nat
deriving DecidableEq

/-- Outcome of the pagination loop.  `finished s true` is a `break` on the
record ceiling; `finished s false` is the `while` condition turning false;
`raised` is a propagated `IndexError` from `_clean_value`; `timedOut` is
the 20-second grid wait expiring before the loop starts; `fuelOut` means
the loop was still running after the given number of iterations. -/
inductive ExtractResult where
  | finished (s : LoopState) (limitBreak : Bool)
  | raised (s : LoopState)
  | timedOut (s : LoopState)
  | fuelOut (s : LoopState)
deriving DecidableEq

/-- The `self.data` list carried by any outcome. -/
def ExtractResult.finalData : ExtractResult → List Product
  | .finished s _ => s.data
  | .raised s => s.data
  | .timedOut s => s.data
  | .fuelOut s => s.data

/-- The loop ended with `no_new_items_count` at its bound (the message
`"No new items found for multiple iterations"`), without a limit break. -/
def ExtractResult.converged : ExtractResult → Bool
  | .finished s limitBreak => !limitBreak && decide (3 ≤ s.noNewItems)
  | _ => false

/-- The loop ended with `scroll_attempts` at its bound (the message
`"Reached maximum scroll attempts (1000)"`), without a limit break. -/
def ExtractResult.maxAttemptsExceeded : ExtractResult → Bool
  | .finished s limitBreak => !limitBreak && decide (1000 ≤ s.scrollAttempts)
  | _ => false

/-- A loop outcome that genuinely stopped: a break on the record ceiling,
the stagnation counter reaching 3, the no-growth counter reaching 1000, or
an `IndexError` propagated out of `_clean_value` (reachable, since a field
like a `0x1c`-space-`0x1c` string survives the JS trim but is pure
whitespace to `str.split()`).  `timedOut` and `fuelOut` never qualify. -/
def ExtractResult.validStop (maxp : Nat) : ExtractResult → Prop
  | .finished s true => maxp ≠ 0 ∧ maxp ≤ s.data.length
  | .finished s false => 3 ≤ s.noNewItems ∨ 1000 ≤ s.scrollAttempts
  | .raised _ => True
  | _ => False

/-- One iteration of the `while` loop of `_extract_product_data`
(lines 441-480), reading the page through `env`: `(env i).1` is the card
list rendered when the loop body runs for the `i`-th time and `(env i).2`
is `document.body.scrollHeight` measured after the `i`-th scroll.
`inl` ends the loop, `inr` is the state carried into the next iteration. -/
def loopStep (maxp : Nat) (env : Nat → List RawCard × Nat) (i : Nat) (s : LoopState) :
    ExtractResult ⊕ LoopState :=
  if s.scrollAttempts < 1000 ∧ s.noNewItems < 3 then
    if maxp ≠ 0 ∧ maxp ≤ s.data.length then
      .inl (.finished s true)
    else
      match mergeBatch maxp (extractView (env i).1) s.data s.extractedIds with
      | none => .inl (.raised s)
      | some (data', ids') =>
        if maxp ≠ 0 ∧ maxp ≤ data'.length then
          .inl (.finished (LoopState.mk data' ids' s.lastHeight s.scrollAttempts
            (if data'.length - s.data.length = 0 then s.noNewItems + 1 else 0)) true)
        else if (env i).2 = s.lastHeight then
          .inr (LoopState.mk data' ids' s.lastHeight (s.scrollAttempts + 1)
            (if data'.length - s.data.length = 0 then s.noNewItems + 1 else 0))
        else
          .inr (LoopState.mk data' ids' (env i).2 0
            (if data'.length - s.data.length = 0 then s.noNewItems + 1 else 0))
  else
    .inl (.finished s false)

/-- The pagination loop, run for at most `fuel` iterations. -/
def extractLoop (maxp : Nat) (env : Nat → List RawCard × Nat) :
    Nat → Nat → LoopState → ExtractResult
  | 0, _, s => .fuelOut s
  | fuel + 1, i, s =>
    match loopStep maxp env i s with
    | .inl r => r
    | .inr s' => extractLoop maxp env fuel (i + 1) s'

/-- Loop state on entry (lines 431-436): `extracted_ids = set()`, both
counters zero, `last_height` freshly measured; `data0` is `self.data`. -/
def initState (data0 : List Product) (h0 : Nat) : LoopState :=
  LoopState.mk data0 [] h0 0 0

/-- Model of `_extract_product_data` (lines 416-486): if the grid never becomes
visible within its 20-second bound the method returns at once with
`self.data` untouched, otherwise it runs the pagination loop. -/
def extractProductData (gridVisible : Bool) (maxp : Nat)
    (env : Nat → List RawCard × Nat) (h0 fuel : Nat) (data0 : List Product) :
    ExtractResult :=
  if gridVisible then extractLoop maxp env fuel 0 (initState data0 h0)
  else .timedOut (initState data0 h0)

/-- Python truthiness of an optional string: `None` and `""` are falsy. -/
def truthyText : Option (List Char) → Bool
  | none => false
  | some s => !s.isEmpty

/-- Model of `config.get(key, default)` over the parsed configuration mapping. -/
def pyGet (config : List (List Char × List Char)) (key : List Char)
    (default : Option (List Char)) : Option (List Char) :=
  match config.find? (fun kv => kv.1 == key) with
  | some kv => some kv.2
  | none => default

/-- Lines 40-43 of `run`: when either explicit credential is falsy, both
are re-read from the config mapping with the explicit value as default. -/
def resolveCreds (username password : Option (List Char))
    (config : List (List Char × List Char)) :
    Option (List Char) × Option (List Char) :=
  if !(truthyText username && truthyText password) then
    (pyGet config ['u','s','e','r','n','a','m','e'] username,
     pyGet config ['p','a','s','s','w','o','r','d'] password)
  else
    (username, password)

/-- The fatal errors `run` can raise before or during extraction. -/
inductive RunError where
  | credentialsMissing
  | loginFailed
  | cleaningError
deriving DecidableEq

/-- The outside world as `run` observes it. -/
structure RunEnv where
  loginRequired : Bool
  loginStillRequiredAfterSubmit : Bool
  gridVisible : Bool
  views : Nat → List RawCard × Nat
  initialHeight : Nat

/-- Model of `DataExtractor.run` (lines 33-106), with browser traffic abstracted
into `RunEnv`.  Navigation steps only soft-fail and touch no extraction
state, so they do not appear.  The value is `none` when the loop was still
running after `fuel` iterations, otherwise the exported record list or the
propagated fatal error. -/
def runModel (env : RunEnv) (username password : Option (List Char))
    (config : List (List Char × List Char)) (maxp fuel : Nat) :
    Option (Except RunError (List Product)) :=
  let creds := resolveCreds username password config
  if env.loginRequired && !(truthyText creds.1 && truthyText creds.2) then
    some (.error .credentialsMissing)
  else if env.loginRequired && env.loginStillRequiredAfterSubmit then
    some (.error .loginFailed)
  else
    match extractProductData env.gridVisible maxp env.views env.initialHeight fuel [] with
    | .finished s _ => some (.ok s.data)
    | .timedOut s => some (.ok s.data)
    | .raised _ => some (.error .cleaningError)
    | .fuelOut _ => none

/-- Spec-side rendering of claim C4 as stated: the containment test reads
"contains whitespace", so it is `any pyIsSpace` here, while everything else
follows `_clean_value`; compared against `cleanValue`, whose test is the
space character only. -/
def cleanSpecC4 (value : List Char) : Option (List Char) :=
  if value.any pyIsSpace then
    match (pySplit value).find? isValueToken with
    | some part => some part
    | none => (pySplit value).head?
  else
    some value

/-- Spec-side rendering of the amended C4: a value containing a space
character is replaced by its first whitespace-split token that holds a
digit or starts with a dollar sign, else by the first token (an error when
the split is empty); anything without a space passes through unchanged. -/
def cleanSpecAmended (value : List Char) : Option (List Char) :=
  if ' ' ∈ value then
    match (pySplit value).filter isValueToken with
    | q :: _ => some q
    | [] => (pySplit value).head?
  else
    some value

/-- Card used by the unlimited-ceiling run: the id of the `n`-th batch is a
fresh run of `n + 1` letters, every other field is a fixed clean scalar. -/
def advCard (n : Nat) : RawCard :=
  RawCard.mk (some ['p']) (some (List.replicate (n + 1) 'a'))
    (some ['$','1','.','0','0']) (some ['1','.','5']) (some ['9'])

/-- The id carried by `advCard`. -/
def advId (n : Nat) : List Char :=
  List.replicate (n + 1) 'a'

/-- The record `advCard n` extracts to. -/
def advProduct (n : Nat) : Product :=
  Product.mk ['p'] (advId n) ['$','1','.','0','0'] ['1','.','5'] ['9']

/-- A page that serves one fresh product per batch and keeps growing. -/
def advEnv : Nat → List RawCard × Nat :=
  fun n => ([advCard n], n + 1)

/-- Loop state after `i` iterations over `advEnv`: `i` records stored, both
counters zero, height `i`. -/
def advState (i : Nat) : LoopState :=
  LoopState.mk ((List.range i).map advProduct) ((List.range i).map advId) i 0 0

/-- With a falsy ceiling, the loop over `advEnv` runs out of any amount of
fuel while still in flight: it never stops. -/
def UnboundedPagination : Prop :=
  ∀ (fuel i : Nat), extractLoop 0 advEnv fuel i (advState i) = .fuelOut (advState (i + fuel))

/-- First card of the duplicate-id run: raw id `"42"`. -/
def dupCardA : RawCard :=
  RawCard.mk (some "Alpha".toList) (some "42".toList) (some "$1.00".toList)
    (some "1.0".toList) (some "5".toList)

/-- Second card of the duplicate-id run: raw id `"42 units"`, which cleans
to `"42"` as well. -/
def dupCardB : RawCard :=
  RawCard.mk (some "Beta".toList) (some "42 units".toList) (some "$2.00".toList)
    (some "2.0".toList) (some "6".toList)

/-- A page serving the two colliding cards once, then nothing. -/
def dupEnv : Nat → List RawCard × Nat :=
  fun i => (if i = 0 then [dupCardA, dupCardB] else [], 3)

/-- A complete card used by the ceiling-zero run. -/
def zeroCard : RawCard :=
  RawCard.mk (some "Solo".toList) (some "77".toList) (some "$3.00".toList)
    (some "3.0".toList) (some "7".toList)

/-- A page serving one complete card once, then nothing. -/
def zeroCeilEnv : Nat → List RawCard × Nat :=
  fun i => (if i = 0 then [zeroCard] else [], 7)

/-- The `n`-th of nine distinct complete cards served in one batch. -/
def nineCard (n : Nat) : RawCard :=
  RawCard.mk (some "N".toList) (some (List.replicate (n + 1) 'b'))
    (some "$1.00".toList) (some "1.5".toList) (some "9".toList)

/-- A page whose first batch holds nine distinct complete cards. -/
def nineEnv : Nat → List RawCard × Nat :=
  fun i => (if i = 0 then (List.range 9).map nineCard else [], 4)

/-- A complete card whose price survives the JS trim (the `0x1c` controls
are not JS whitespace) yet is all-Python-whitespace containing a space, so
`_clean_value` raises on it. -/
def badCard : RawCard :=
  RawCard.mk (some "Bad".toList) (some "0".toList) (some ['\x1c', ' ', '\x1c'])
    (some "1.0".toList) (some "5".toList)

/-- A page whose first batch holds nine distinct complete cards, the first
of which makes the cleaner raise. -/
def badNineEnv : Nat → List RawCard × Nat :=
  fun i => (if i = 0 then badCard :: (List.range 8).map nineCard else [], 4)

/-- A page with no products and a constant height. -/
def flatEmptyEnv : Nat → List RawCard × Nat :=
  fun _ => ([], 5)

/-- A page with no products whose height keeps growing. -/
def growEmptyEnv : Nat → List RawCard × Nat :=
  fun k => ([], k + 1)

/-- A run that finds login indicators on an empty page. -/
def loginWallEnv : RunEnv :=
  RunEnv.mk true false true flatEmptyEnv 5

/-- A logged-in run whose product grid never becomes visible. -/
def gridHiddenEnv : RunEnv :=
  RunEnv.mk false false false flatEmptyEnv 5

/-! ### Lemmas about `pySplit` and `cleanValue` -/

-- Tokens produced by `splitAux` contain no whitespace characters.
theorem splitAux_not_space : ∀ (s cur : List Char),
    (∀ c ∈ cur, pyIsSpace c = false) →
    ∀ t ∈ splitAux s cur, ∀ c ∈ t, pyIsSpace c = false := by
  intro s
  induction s with
  | nil =>
    intro cur hcur t ht c hc
    simp only [splitAux] at ht
    by_cases he : cur.isEmpty
    · simp [he] at ht
    · simp [he] at ht
      subst ht
      exact hcur c (List.mem_reverse.mp hc)
  | cons a rest ih =>
    intro cur hcur t ht c hc
    simp only [splitAux] at ht
    by_cases ha : pyIsSpace a
    · simp only [ha, if_true] at ht
      by_cases he : cur.isEmpty
      · simp only [he, if_true] at ht
        exact ih [] (by simp) t ht c hc
      · simp only [he, if_false] at ht
        rcases List.mem_cons.mp ht with h | h
        · subst h
          exact hcur c (List.mem_reverse.mp hc)
        · exact ih [] (by simp) t h c hc
    · simp only [ha, if_false] at ht
      refine ih (a :: cur) ?_ t ht c hc
      intro d hd
      rcases List.mem_cons.mp hd with h | h
      · subst h
        exact Bool.not_eq_true _ ▸ ha
      · exact hcur d h

-- Tokens of `pySplit` contain no whitespace characters.
theorem pySplit_not_space (v : List Char) :
    ∀ t ∈ pySplit v, ∀ c ∈ t, pyIsSpace c = false :=
  splitAux_not_space v [] (by simp)

-- A list without whitespace characters does not contain the space char.
theorem contains_space_eq_false (t : List Char)
    (h : ∀ c ∈ t, pyIsSpace c = false) : t.contains ' ' = false := by
  cases hc : t.contains ' ' with
  | false => rfl
  | true =>
    have hm : ' ' ∈ t := by
      have := List.elem_iff.mp hc
      exact this
    have hfalse := h ' ' hm
    have htrue : pyIsSpace ' ' = true := by decide
    rw [hfalse] at htrue
    exact absurd htrue (by simp)

-- Bridge between the boolean `contains` test and list membership.
theorem contains_eq_false_iff {α : Type} [BEq α] [LawfulBEq α] (v : List α) (a : α) :
    v.contains a = false ↔ a ∉ v := by
  simp [List.contains]

-- Inputs with no space character pass through `_clean_value` unchanged.
theorem cleanValue_no_space (v : List Char) (h : v.contains ' ' = false) :
    cleanValue v = some v := by
  simp [cleanValue, (contains_eq_false_iff v ' ').mp h]

/-! ### Lemmas about the merge step -/

-- Merging cleanable candidates never raises.
theorem mergeBatch_isSome (maxp : Nat) : ∀ (cands data : List Product)
    (ids : List (List Char)), (∀ p ∈ cands, ∃ q, cleanProduct p = some q) →
    ∃ r, mergeBatch maxp cands data ids = some r := by
  intro cands
  induction cands with
  | nil => intro data ids _; exact ⟨(data, ids), rfl⟩
  | cons p rest ih =>
    intro data ids hclean
    simp only [mergeBatch]
    split
    · obtain ⟨q, hq⟩ := hclean p (List.mem_cons_self p rest)
      rw [hq]
      exact ih _ _ (fun r hr => hclean r (List.mem_cons_of_mem p hr))
    · exact ih _ _ (fun r hr => hclean r (List.mem_cons_of_mem p hr))

-- The stored data only grows during a merge.
theorem mergeBatch_mono (maxp : Nat) : ∀ (cands data : List Product)
    (ids : List (List Char)) (d' : List Product) (i' : List (List Char)),
    mergeBatch maxp cands data ids = some (d', i') → data.length ≤ d'.length := by
  intro cands
  induction cands with
  | nil =>
    intro data ids d' i' h
    simp only [mergeBatch, Option.some_inj, Prod.mk.injEq] at h
    rw [← h.1]
  | cons p rest ih =>
    intro data ids d' i' h
    simp only [mergeBatch] at h
    split at h
    · split at h
      · have := ih _ _ _ _ h
        simp only [List.length_append, List.length_cons, List.length_nil] at this
        omega
      · exact absurd h (by simp)
    · exact ih _ _ _ _ h

-- With a truthy ceiling the merge never pushes the data past it.
theorem mergeBatch_le (maxp : Nat) (hm : maxp ≠ 0) : ∀ (cands data : List Product)
    (ids : List (List Char)) (d' : List Product) (i' : List (List Char)),
    data.length ≤ maxp → mergeBatch maxp cands data ids = some (d', i') →
    d'.length ≤ maxp := by
  intro cands
  induction cands with
  | nil =>
    intro data ids d' i' hle h
    simp only [mergeBatch, Option.some_inj, Prod.mk.injEq] at h
    rw [← h.1]
    exact hle
  | cons p rest ih =>
    intro data ids d' i' hle h
    simp only [mergeBatch] at h
    split at h
    case isTrue hcond =>
      split at h
      · refine ih _ _ _ _ ?_ h
        have hw : withinLimit maxp data.length = true :=
          (Bool.and_eq_true _ _ ▸ hcond).2
        rw [withinLimit, if_neg hm] at hw
        have : data.length < maxp := of_decide_eq_true hw
        simp only [List.length_append, List.length_cons, List.length_nil]
        omega
      · exact absurd h (by simp)
    case isFalse hcond =>
      exact ih _ _ _ _ hle h

-- The id set only grows during a merge.
theorem mergeBatch_ids_subset (maxp : Nat) : ∀ (cands data : List Product)
    (ids : List (List Char)) (d' : List Product) (i' : List (List Char)),
    mergeBatch maxp cands data ids = some (d', i') → ids ⊆ i' := by
  intro cands
  induction cands with
  | nil =>
    intro data ids d' i' h
    simp only [mergeBatch, Option.some_inj, Prod.mk.injEq] at h
    rw [← h.2]
    exact fun x hx => hx
  | cons p rest ih =>
    intro data ids d' i' h
    simp only [mergeBatch] at h
    split at h
    · split at h
      case h_1 q hq =>
        refine List.Subset.trans ?_ (ih _ _ _ _ h)
        rw [insertId]
        split
        · exact fun x hx => hx
        · exact fun x hx => List.mem_append_left _ hx
      case h_2 => exact absurd h (by simp)
    · exact ih _ _ _ _ h

-- Each accepted record adds at most one id, so the growth of the id set
-- is bounded by the growth of the data.
theorem mergeBatch_ids_length (maxp : Nat) : ∀ (cands data : List Product)
    (ids : List (List Char)) (d' : List Product) (i' : List (List Char)),
    mergeBatch maxp cands data ids = some (d', i') →
    i'.length + data.length ≤ ids.length + d'.length := by
  intro cands
  induction cands with
  | nil =>
    intro data ids d' i' h
    simp only [mergeBatch, Option.some_inj, Prod.mk.injEq] at h
    rw [← h.1, ← h.2]
  | cons p rest ih =>
    intro data ids d' i' h
    simp only [mergeBatch] at h
    split at h
    · split at h
      case h_1 q hq =>
        have := ih _ _ _ _ h
        have hins : (insertId ids q.id).length ≤ ids.length + 1 := by
          rw [insertId]
          split
          · omega
          · simp
        simp only [List.length_append, List.length_cons, List.length_nil] at this
        omega
      case h_2 => exact absurd h (by simp)
    · exact ih _ _ _ _ h

-- Candidates whose id is absent from the final id set were never skipped
-- by the duplicate test, so each of them either entered the data or was
-- blocked by the ceiling; this bounds the final size from below.
theorem mergeBatch_lower (maxp : Nat) (hm : maxp ≠ 0) : ∀ (cands data : List Product)
    (ids : List (List Char)) (d' : List Product) (i' : List (List Char)),
    mergeBatch maxp cands data ids = some (d', i') →
    min maxp (data.length + cands.countP (fun c => !(i'.contains c.id))) ≤ d'.length := by
  intro cands
  induction cands with
  | nil =>
    intro data ids d' i' h
    simp only [mergeBatch, Option.some_inj, Prod.mk.injEq] at h
    rw [← h.1]
    simp only [List.countP_nil, Nat.add_zero]
    exact Nat.min_le_right _ _
  | cons p rest ih =>
    intro data ids d' i' h
    simp only [mergeBatch] at h
    split at h
    case isTrue hcond =>
      split at h
      case h_1 q hq =>
        have hrec := ih _ _ _ _ h
        have hcount : (p :: rest).countP (fun c => !(i'.contains c.id)) ≤
            rest.countP (fun c => !(i'.contains c.id)) + 1 := by
          rw [List.countP_cons]
          split <;> omega
        refine Nat.le_trans ?_ hrec
        have harg : data.length + (p :: rest).countP (fun c => !(i'.contains c.id)) ≤
            (data ++ [q]).length + rest.countP (fun c => !(i'.contains c.id)) := by
          simp only [List.length_append, List.length_cons, List.length_nil]
          omega
        exact min_le_min (le_refl maxp) harg
      case h_2 => exact absurd h (by simp)
    case isFalse hcond =>
      have hrec := ih _ _ _ _ h
      rw [Bool.and_eq_true] at hcond
      push_neg at hcond
      by_cases hc : ids.contains p.id = true
      · have hmem : p.id ∈ ids := List.elem_iff.mp hc
        have hsub := mergeBatch_ids_subset maxp rest data ids d' i' h
        have hmem' : p.id ∈ i' := hsub hmem
        have hcon' : i'.contains p.id = true := List.elem_iff.mpr hmem'
        have hsame : (p :: rest).countP (fun c => !(i'.contains c.id)) =
            rest.countP (fun c => !(i'.contains c.id)) := by
          rw [List.countP_cons, hcon']
          simp
        rw [hsame]
        exact hrec
      · have hcf : ids.contains p.id = false := by
          cases hcc : ids.contains p.id with
          | false => rfl
          | true => exact absurd hcc hc
        have hw : withinLimit maxp data.length = false := by
          cases hwv : withinLimit maxp data.length with
          | false => rfl
          | true => exact absurd hwv (hcond (by rw [hcf]; rfl))
        rw [withinLimit, if_neg hm] at hw
        have hfull : maxp ≤ data.length := by
          have := of_decide_eq_false hw
          omega
        have hmono := mergeBatch_mono maxp rest data ids d' i' h
        exact Nat.le_trans (Nat.le_trans (Nat.min_le_left _ _) hfull) hmono

-- Pigeonhole: with pairwise-distinct ids, at most `i'.length` candidates
-- can have their id inside `i'`.
theorem countP_contains_le (cands : List Product) (i' : List (List Char))
    (hnd : (cands.map Product.id).Nodup) :
    cands.countP (fun c => i'.contains c.id) ≤ i'.length := by
  rw [List.countP_eq_length_filter]
  have hlen : ((cands.filter (fun c => i'.contains c.id)).map Product.id).length =
      (cands.filter (fun c => i'.contains c.id)).length := List.length_map _ _
  rw [← hlen]
  have hsl : List.Sublist ((cands.filter (fun c => i'.contains c.id)).map Product.id)
      (cands.map Product.id) :=
    List.Sublist.map Product.id (List.filter_sublist cands)
  have hnd' : ((cands.filter (fun c => i'.contains c.id)).map Product.id).Nodup :=
    List.Nodup.sublist hsl hnd
  have hsub : (cands.filter (fun c => i'.contains c.id)).map Product.id ⊆ i' := by
    intro x hx
    obtain ⟨c, hc, hcx⟩ := List.mem_map.mp hx
    have := (List.mem_filter.mp hc).2
    rw [← hcx]
    exact List.elem_iff.mp this
  exact List.Subperm.length_le (List.Nodup.subperm hnd' hsub)

-- Complementary counts over a list add up to its length.
theorem countP_not_add (p : Product → Bool) (l : List Product) :
    l.countP (fun c => !(p c)) + l.countP p = l.length := by
  induction l with
  | nil => rfl
  | cons a t ih =>
    rw [List.countP_cons, List.countP_cons, List.length_cons]
    cases hp : p a <;> simp [hp] <;> omega

/-! ### Lemmas about the pagination loop -/

theorem extractLoop_zero (maxp : Nat) (env : Nat → List RawCard × Nat) (i : Nat)
    (s : LoopState) : extractLoop maxp env 0 i s = .fuelOut s := rfl

theorem extractLoop_inl (maxp : Nat) (env : Nat → List RawCard × Nat) (fuel i : Nat)
    (s : LoopState) (r : ExtractResult) (h : loopStep maxp env i s = .inl r) :
    extractLoop maxp env (fuel + 1) i s = r := by
  simp [extractLoop, h]

theorem extractLoop_inr (maxp : Nat) (env : Nat → List RawCard × Nat) (fuel i : Nat)
    (s s' : LoopState) (h : loopStep maxp env i s = .inr s') :
    extractLoop maxp env (fuel + 1) i s = extractLoop maxp env fuel (i + 1) s' := by
  simp [extractLoop, h]

-- Invariant behind the record ceiling: whatever the page serves, the data
-- carried by any loop outcome stays within a truthy ceiling.
theorem extractLoop_data_le (maxp : Nat) (hm : maxp ≠ 0)
    (env : Nat → List RawCard × Nat) : ∀ (fuel i : Nat) (s : LoopState),
    s.data.length ≤ maxp →
    (extractLoop maxp env fuel i s).finalData.length ≤ maxp := by
  intro fuel
  induction fuel with
  | zero =>
    intro i s hs
    rw [extractLoop_zero]
    exact hs
  | succ fuel ih =>
    intro i s hs
    cases hstep : loopStep maxp env i s with
    | inl r =>
      rw [extractLoop_inl maxp env fuel i s r hstep]
      unfold loopStep at hstep
      split at hstep
      · split at hstep
        · cases hstep
          exact hs
        · split at hstep
          case h_1 =>
            cases hstep
            exact hs
          case h_2 d' i' hmerge =>
            split at hstep
            · cases hstep
              exact mergeBatch_le maxp hm _ _ _ _ _ hs hmerge
            · split at hstep <;> exact absurd hstep (by simp)
      · cases hstep
        exact hs
    | inr s' =>
      rw [extractLoop_inr maxp env fuel i s s' hstep]
      refine ih (i + 1) s' ?_
      unfold loopStep at hstep
      split at hstep
      · split at hstep
        · exact absurd hstep (by simp)
        · split at hstep
          case h_1 => exact absurd hstep (by simp)
          case h_2 d' i' hmerge =>
            split at hstep
            · exact absurd hstep (by simp)
            · split at hstep
              · cases hstep
                exact mergeBatch_le maxp hm _ _ _ _ _ hs hmerge
              · cases hstep
                exact mergeBatch_le maxp hm _ _ _ _ _ hs hmerge
      · exact absurd hstep (by simp)

-- Termination measure: iterations that accept records shrink the distance
-- to the ceiling, iterations that accept nothing raise the stagnation
-- counter, and no third kind of non-final iteration exists.
theorem extractLoop_valid_stop (maxp : Nat) (hm : maxp ≠ 0)
    (env : Nat → List RawCard × Nat) : ∀ (fuel i : Nat) (s : LoopState),
    s.data.length ≤ maxp → s.noNewItems ≤ 3 →
    4 * (maxp - s.data.length) + (3 - s.noNewItems) < fuel →
    (extractLoop maxp env fuel i s).validStop maxp := by
  intro fuel
  induction fuel with
  | zero =>
    intro i s _ _ hfuel
    exact absurd hfuel (Nat.not_lt_zero _)
  | succ fuel ih =>
    intro i s hdle hnle hfuel
    cases hstep : loopStep maxp env i s with
    | inl r =>
      rw [extractLoop_inl maxp env fuel i s r hstep]
      unfold loopStep at hstep
      split at hstep
      case isTrue hcond =>
        split at hstep
        case isTrue hlim =>
          cases hstep
          exact hlim
        case isFalse hlim =>
          split at hstep
          case h_1 hmerge =>
            cases hstep
            trivial
          case h_2 d' i' hmerge =>
            split at hstep
            case isTrue hlim2 =>
              cases hstep
              exact hlim2
            case isFalse hlim2 =>
              split at hstep <;> exact absurd hstep (by simp)
      case isFalse hcond =>
        cases hstep
        rw [Decidable.not_and_iff_or_not] at hcond
        show 3 ≤ s.noNewItems ∨ 1000 ≤ s.scrollAttempts
        rcases hcond with hcl | hcr
        · right
          omega
        · left
          omega
    | inr s' =>
      rw [extractLoop_inr maxp env fuel i s s' hstep]
      unfold loopStep at hstep
      split at hstep
      case isTrue hcond =>
        split at hstep
        case isTrue hlim => exact absurd hstep (by simp)
        case isFalse hlim =>
          split at hstep
          case h_1 => exact absurd hstep (by simp)
          case h_2 d' i' hmerge =>
            have hmono := mergeBatch_mono maxp _ _ _ _ _ hmerge
            have hle := mergeBatch_le maxp hm _ _ _ _ _ hdle hmerge
            split at hstep
            case isTrue hlim2 => exact absurd hstep (by simp)
            case isFalse hlim2 =>
              have hdlt : d'.length < maxp := by
                rw [Decidable.not_and_iff_or_not] at hlim2
                rcases hlim2 with h | h
                · exact absurd hm h
                · omega
              have hnn3 : s.noNewItems < 3 := hcond.2
              split at hstep <;>
              · cases hstep
                by_cases hnn : d'.length - s.data.length = 0
                · refine ih (i + 1) _ (by simpa using hle) ?_ ?_
                  · simp only [hnn, if_true]
                    omega
                  · simp only [hnn, if_true]
                    omega
                · refine ih (i + 1) _ (by simpa using hle) ?_ ?_
                  · simp only [hnn, if_false]
                    omega
                  · simp only [hnn, if_false]
                    omega
      case isFalse hcond => exact absurd hstep (by simp)

/-! ### The unlimited-ceiling adversarial run -/

-- `dropWhile` is the identity on lists whose head falsifies the predicate.
theorem dropWhile_all_false (p : Char → Bool) (l : List Char)
    (h : ∀ c ∈ l, p c = false) : l.dropWhile p = l := by
  cases l with
  | nil => rfl
  | cons a t =>
    rw [List.dropWhile_cons, h a (List.mem_cons_self a t)]
    simp

-- Trimming is the identity on whitespace-free strings.
theorem jsTrim_all_not_space (l : List Char) (h : ∀ c ∈ l, jsIsSpace c = false) :
    jsTrim l = l := by
  unfold jsTrim
  rw [dropWhile_all_false jsIsSpace l h]
  rw [dropWhile_all_false jsIsSpace l.reverse (fun c hc => h c (List.mem_reverse.mp hc))]
  exact List.reverse_reverse l

-- Replicated letters falsify any predicate their letter falsifies.
theorem replicate_pred_false (p : Char → Bool) (m : Nat) (a : Char) (ha : p a = false) :
    ∀ c ∈ List.replicate m a, p c = false := by
  intro c hc
  rw [(List.mem_replicate.mp hc).2]
  exact ha

theorem cardToProduct_advCard (n : Nat) :
    cardToProduct (advCard n) = some (advProduct n) := by
  have hid : jsTrim (List.replicate (n + 1) 'a') = List.replicate (n + 1) 'a' :=
    jsTrim_all_not_space _ (replicate_pred_false jsIsSpace (n + 1) 'a' (by decide))
  have hemp : (List.replicate (n + 1) 'a').isEmpty = false := by
    rw [List.replicate_succ]
    rfl
  have hname : jsTrim ['p'] = ['p'] := by decide
  have hprice : jsTrim ['$','1','.','0','0'] = ['$','1','.','0','0'] := by decide
  have hmass : jsTrim ['1','.','5'] = ['1','.','5'] := by decide
  have hscore : jsTrim ['9'] = ['9'] := by decide
  simp only [cardToProduct, advCard, advProduct, advId, hid, hname, hprice, hmass, hscore,
    hemp]
  rfl

theorem extractView_advCard (n : Nat) :
    extractView [advCard n] = [advProduct n] := by
  simp [extractView, List.filterMap_cons, cardToProduct_advCard n]

theorem cleanProduct_advProduct (n : Nat) :
    cleanProduct (advProduct n) = some (advProduct n) := by
  have hid : cleanValue (advId n) = some (advId n) :=
    cleanValue_no_space _
      (contains_space_eq_false _ (replicate_pred_false pyIsSpace (n + 1) 'a' (by decide)))
  have hprice : cleanValue ['$','1','.','0','0'] = some ['$','1','.','0','0'] := by decide
  have hmass : cleanValue ['1','.','5'] = some ['1','.','5'] := by decide
  have hscore : cleanValue ['9'] = some ['9'] := by decide
  simp only [cleanProduct, advProduct, hid, hprice, hmass, hscore]

-- Each batch of the adversarial run carries an unseen id.
theorem advId_fresh (i : Nat) : advId i ∉ (List.range i).map advId := by
  intro hmem
  obtain ⟨k, hk, hke⟩ := List.mem_map.mp hmem
  have hlen := congrArg List.length hke
  simp only [advId, List.length_replicate] at hlen
  have := List.mem_range.mp hk
  omega

theorem mergeBatch_adv (i : Nat) :
    mergeBatch 0 [advProduct i] ((List.range i).map advProduct) ((List.range i).map advId)
      = some ((List.range (i + 1)).map advProduct, (List.range (i + 1)).map advId) := by
  have hcon : ((List.range i).map advId).contains (advId i) = false :=
    (contains_eq_false_iff _ _).mpr (advId_fresh i)
  have hconp : ((List.range i).map advId).contains (advProduct i).id = false := hcon
  simp only [mergeBatch, hconp, Bool.not_false, withinLimit, if_pos rfl, Bool.and_self,
    if_true, cleanProduct_advProduct i]
  simp only [insertId, hconp, Bool.false_eq_true, if_false, List.range_succ,
    List.map_append, List.map_cons, List.map_nil]
  rfl

theorem loopStep_adv (i : Nat) :
    loopStep 0 advEnv i (advState i) = .inr (advState (i + 1)) := by
  have hne : ¬ (i + 1 = i) := by omega
  have hsub : i + 1 - i = 1 := by omega
  simp [loopStep, advState, advEnv, extractView_advCard i, mergeBatch_adv i, hne, hsub]

theorem extractLoop_adv : ∀ (fuel i : Nat),
    extractLoop 0 advEnv fuel i (advState i) = .fuelOut (advState (i + fuel)) := by
  intro fuel
  induction fuel with
  | zero =>
    intro i
    rw [extractLoop_zero, Nat.add_zero]
  | succ fuel ih =>
    intro i
    rw [extractLoop_inr 0 advEnv fuel i _ _ (loopStep_adv i), ih (i + 1)]
    have : i + 1 + fuel = i + (fuel + 1) := by omega
    rw [this]

/-! ### Claim theorems -/

-- Bridge between a true `contains` test and list membership.
theorem contains_eq_true_iff {α : Type} [BEq α] [LawfulBEq α] (v : List α) (a : α) :
    v.contains a = true ↔ a ∈ v := by
  simp [List.contains]

-- The first hit of `find?` is the head of the filtered list.
theorem find_eq_filter_head (p : List Char → Bool) : ∀ (l : List (List Char)),
    l.find? p = (l.filter p).head? := by
  intro l
  induction l with
  | nil => rfl
  | cons a t ih =>
    rw [List.find?_cons, List.filter_cons]
    cases hp : p a with
    | true => rfl
    | false => exact ih

/-- Claim C5 (confirmed): `_clean_value` is idempotent.  The composition is
taken in the error monad, so a raised `IndexError` propagates unchanged:
wherever the first cleaning returns a value, cleaning that value again
returns it untouched. -/
theorem clean_idempotent (v : List Char) :
    (cleanValue v).bind cleanValue = cleanValue v := by
  have htok : ∀ t ∈ pySplit v, cleanValue t = some t := fun t ht =>
    cleanValue_no_space t (contains_space_eq_false t (pySplit_not_space v t ht))
  cases hcon : v.contains ' ' with
  | false =>
    rw [cleanValue_no_space v hcon, Option.some_bind]
    exact cleanValue_no_space v hcon
  | true =>
    have hval : cleanValue v = (match (pySplit v).find? isValueToken with
        | some part => some part
        | none => (pySplit v).head?) := by
      unfold cleanValue
      rw [hcon]
      simp
    cases hf : (pySplit v).find? isValueToken with
    | some part =>
      have hcv : cleanValue v = some part := by rw [hval, hf]
      rw [hcv, Option.some_bind]
      rw [htok part (List.mem_of_find?_eq_some hf)]
    | none =>
      cases hh : (pySplit v).head? with
      | none =>
        have hcv : cleanValue v = none := by rw [hval, hf, hh]
        rw [hcv]
        rfl
      | some q =>
        have hq : q ∈ pySplit v := by
          cases hps : pySplit v with
          | nil => rw [hps] at hh; exact absurd hh (by simp)
          | cons a t =>
            rw [hps] at hh
            simp only [List.head?_cons, Option.some_inj] at hh
            subst hh
            exact List.mem_cons_self _ _
        have hcv : cleanValue v = some q := by rw [hval, hf, hh]
        rw [hcv, Option.some_bind]
        rw [htok q hq]

/-- Claim C10 (confirmed): `_clean_value` is not total.  Whenever the input
contains a space yet `split()` yields no token — an all-whitespace string —
the function reaches `parts[0]` and raises `IndexError`, modelled as
`none`. -/
theorem clean_raises_on_blank (v : List Char) (h1 : v.contains ' ' = true)
    (h2 : pySplit v = []) : cleanValue v = none := by
  unfold cleanValue
  rw [h1, h2]
  simp

/-- Witness for C10 at the one-space string `" "`. -/
theorem clean_raises_on_blank_witness :
    ([' '].contains ' ' = true) ∧ pySplit [' '] = [] ∧ cleanValue [' '] = none :=
  ⟨by decide, by decide, clean_raises_on_blank [' '] (by decide) (by decide)⟩

/-- Counterexample to claim C4 as stated: the string `"1\t2"` contains
whitespace (a tab), so the claimed behaviour returns the first token `"1"`;
the code checks only for the space character and returns the string
unchanged. -/
theorem clean_tab_counterexample :
    cleanValue ['1', '\t', '2'] = some ['1', '\t', '2'] ∧
      cleanSpecC4 ['1', '\t', '2'] = some ['1'] ∧
      (['1', '\t', '2'] : List Char) ≠ ['1'] :=
  ⟨by decide, by decide, by decide⟩

/-- Claim C4 (amended): the normalizer splits only when the input contains
a space character (splitting itself is on general whitespace, and an
all-whitespace input makes it raise); it behaves as claimed on the four
scenario values; and the live extraction routine applies it to exactly the
id, price, mass_kg and score fields of each accepted record. -/
theorem clean_matches_amended_spec :
    (∀ v : List Char, cleanValue v = cleanSpecAmended v) ∧
      cleanValue "42 units".toList = some "42".toList ∧
      cleanValue "$19.99 USD".toList = some "$19.99".toList ∧
      cleanValue "3.2 kg".toList = some "3.2".toList ∧
      cleanValue "8.7".toList = some "8.7".toList ∧
      (∀ p : Product, cleanProduct p =
        (cleanValue p.id).bind (fun i => (cleanValue p.price).bind (fun pr =>
          (cleanValue p.mass_kg).bind (fun m => (cleanValue p.score).bind (fun sc =>
            some (Product.mk p.name i pr m sc)))))) := by
  refine ⟨?_, by decide, by decide, by decide, by decide, ?_⟩
  · intro v
    by_cases hm : ' ' ∈ v
    · have hcon : v.contains ' ' = true := (contains_eq_true_iff v ' ').mpr hm
      unfold cleanValue cleanSpecAmended
      rw [hcon, if_pos hm, find_eq_filter_head isValueToken (pySplit v)]
      cases hfl : (pySplit v).filter isValueToken with
      | nil => simp
      | cons q qs => simp
    · have hcon : v.contains ' ' = false := (contains_eq_false_iff v ' ').mpr hm
      unfold cleanValue cleanSpecAmended
      rw [hcon, if_neg hm]
      simp
  · intro p
    unfold cleanProduct
    cases cleanValue p.id <;> cases cleanValue p.price <;> cases cleanValue p.mass_kg <;>
      cases cleanValue p.score <;> rfl

/-- Claim C1 (code bug): the duplicate test compares the raw id against the
set of already-cleaned ids.  A batch with raw ids `"42"` then `"42 units"`
passes both through: the final data holds two records whose id is `"42"`,
breaking the uniqueness invariant the spec states. -/
theorem duplicate_id_accepted :
    ((extractLoop 10 dupEnv 6 0 (initState [] 3)).finalData).map Product.id
        = ["42".toList, "42".toList] ∧
      ¬ (((extractLoop 10 dupEnv 6 0 (initState [] 3)).finalData).map Product.id).Nodup :=
  ⟨by decide, by decide⟩

/-- Claim C2 (amended): with a truthy (positive) ceiling, the data carried
by any loop outcome never exceeds it. -/
theorem ceiling_respected (env : Nat → List RawCard × Nat) (maxp h0 fuel : Nat)
    (hm : maxp ≠ 0) :
    ((extractLoop maxp env fuel 0 (initState [] h0)).finalData).length ≤ maxp :=
  extractLoop_data_le maxp hm env fuel 0 (initState [] h0) (by simp [initState])

/-- Witness for C2 with ceiling 1 over an empty page. -/
theorem ceiling_respected_witness :
    ((extractLoop 1 flatEmptyEnv 5 0 (initState [] 0)).finalData).length ≤ 1 :=
  ceiling_respected flatEmptyEnv 1 0 5 (by decide)

/-- Counterexample to claim C2 as stated: with the ceiling configured to 0
the code disables the limit (`0 or float('inf')`), and a run over a page
with one product ends with one record — more than the configured 0. -/
theorem ceiling_zero_counterexample :
    0 < ((extractLoop 0 zeroCeilEnv 6 0 (initState [] 7)).finalData).length := by
  decide

/-- Claim C3 (amended): for every page and every truthy ceiling the loop
stops within `4 * maxp + 4` iterations, stopping either for one of the
three documented reasons — limit break, stagnation counter at 3, no-growth
counter at 1000 — or by an `IndexError` propagated out of `_clean_value`
(a card field can survive the JS trim yet split to no Python tokens). -/
theorem pagination_terminates (env : Nat → List RawCard × Nat) (maxp h0 : Nat)
    (hm : maxp ≠ 0) :
    (extractLoop maxp env (4 * maxp + 4) 0 (initState [] h0)).validStop maxp :=
  extractLoop_valid_stop maxp hm env (4 * maxp + 4) 0 (initState [] h0)
    (by simp [initState]) (by simp [initState])
    (by show 4 * (maxp - 0) + (3 - 0) < 4 * maxp + 4; omega)

/-- Witness for C3 with ceiling 1 over an empty page. -/
theorem pagination_terminates_witness :
    (extractLoop 1 flatEmptyEnv 8 0 (initState [] 0)).validStop 1 :=
  pagination_terminates flatEmptyEnv 1 0 (by decide)

/-- Counterexample to claim C3 as stated: with a falsy ceiling (`None` or
`0`) and a page that always serves one fresh id while its height keeps
growing, the loop state after any number of iterations is still live — the
loop never terminates, for any amount of fuel, from the initial state
(`advState 0` is exactly the loop entry state). -/
theorem pagination_never_stops_unlimited :
    UnboundedPagination ∧ advState 0 = initState [] 0 :=
  ⟨extractLoop_adv, rfl⟩

/-- Claim C8 (confirmed): when login is required and neither credential is
truthy after consulting the configuration, `run` raises the authentication
error before any extraction or export. -/
theorem missing_credentials_aborts (env : RunEnv) (username password : Option (List Char))
    (config : List (List Char × List Char)) (maxp fuel : Nat)
    (hreq : env.loginRequired = true)
    (hu : truthyText (resolveCreds username password config).1 = false)
    (hp : truthyText (resolveCreds username password config).2 = false) :
    runModel env username password config maxp fuel = some (.error .credentialsMissing) := by
  simp [runModel, hreq, hu, hp]

/-- Witness for C8: a login wall with no explicit credentials and an empty
config. -/
theorem missing_credentials_aborts_witness :
    runModel loginWallEnv none none [] 5 9 = some (.error .credentialsMissing) :=
  missing_credentials_aborts loginWallEnv none none [] 5 9 rfl (by decide) (by decide)

/-- Claim C9 (confirmed): when the product grid never becomes visible,
`_extract_product_data` returns with the accumulated data untouched and the
run proceeds to export that (possibly empty) collection instead of
failing. -/
theorem grid_timeout_keeps_results (env : RunEnv) (username password : Option (List Char))
    (config : List (List Char × List Char)) (maxp fuel : Nat)
    (hgrid : env.gridVisible = false)
    (hauth : (env.loginRequired && !(truthyText (resolveCreds username password config).1 &&
      truthyText (resolveCreds username password config).2)) = false)
    (hver : (env.loginRequired && env.loginStillRequiredAfterSubmit) = false) :
    runModel env username password config maxp fuel = some (.ok []) ∧
      ∀ data0 : List Product,
        (extractProductData env.gridVisible maxp env.views env.initialHeight fuel
          data0).finalData = data0 := by
  constructor
  · simp only [runModel]
    rw [hauth, hver]
    simp [extractProductData, hgrid, initState]
  · intro data0
    simp [extractProductData, hgrid, initState, ExtractResult.finalData]

/-- Claim C6 (confirmed): starting anywhere in a live run, three
consecutive batches that accept nothing while the height strictly grows
after every scroll drive the stagnation counter to 3 and keep resetting the
no-growth counter; the loop stops converged, not by exhausting scroll
attempts. -/
theorem converged_not_max_attempts (maxp fuel i : Nat)
    (env : Nat → List RawCard × Nat) (s : LoopState)
    (hnn : s.noNewItems = 0) (hsc : s.scrollAttempts < 1000)
    (hlim : maxp = 0 ∨ s.data.length < maxp)
    (hb0 : mergeBatch maxp (extractView (env i).1) s.data s.extractedIds
      = some (s.data, s.extractedIds))
    (hb1 : mergeBatch maxp (extractView (env (i + 1)).1) s.data s.extractedIds
      = some (s.data, s.extractedIds))
    (hb2 : mergeBatch maxp (extractView (env (i + 2)).1) s.data s.extractedIds
      = some (s.data, s.extractedIds))
    (hh0 : s.lastHeight < (env i).2) (hh1 : (env i).2 < (env (i + 1)).2)
    (hh2 : (env (i + 1)).2 < (env (i + 2)).2) :
    (extractLoop maxp env (fuel + 4) i s).converged = true ∧
      (extractLoop maxp env (fuel + 4) i s).maxAttemptsExceeded = false := by
  have hnotlim : ¬ (maxp ≠ 0 ∧ maxp ≤ s.data.length) := by
    rcases hlim with h | h
    · exact fun hc => hc.1 h
    · exact fun hc => by omega
  have hstep0 : loopStep maxp env i s
      = .inr (LoopState.mk s.data s.extractedIds ((env i).2) 0 1) := by
    have h1 : s.scrollAttempts < 1000 ∧ s.noNewItems < 3 := ⟨hsc, by omega⟩
    have hne : ¬ ((env i).2 = s.lastHeight) := by omega
    simp [loopStep, hb0, hnotlim, h1, hne, hnn]
  have hstep1 : loopStep maxp env (i + 1)
      (LoopState.mk s.data s.extractedIds ((env i).2) 0 1)
      = .inr (LoopState.mk s.data s.extractedIds ((env (i + 1)).2) 0 2) := by
    have hne : ¬ ((env (i + 1)).2 = (env i).2) := by omega
    simp [loopStep, hb1, hnotlim, hne]
  have hstep2 : loopStep maxp env (i + 2)
      (LoopState.mk s.data s.extractedIds ((env (i + 1)).2) 0 2)
      = .inr (LoopState.mk s.data s.extractedIds ((env (i + 2)).2) 0 3) := by
    have hne : ¬ ((env (i + 2)).2 = (env (i + 1)).2) := by omega
    simp [loopStep, hb2, hnotlim, hne]
  have hstep3 : loopStep maxp env (i + 3)
      (LoopState.mk s.data s.extractedIds ((env (i + 2)).2) 0 3)
      = .inl (.finished (LoopState.mk s.data s.extractedIds ((env (i + 2)).2) 0 3) false) := by
    simp [loopStep]
  have hrun : extractLoop maxp env (fuel + 4) i s
      = .finished (LoopState.mk s.data s.extractedIds ((env (i + 2)).2) 0 3) false := by
    have e0 : extractLoop maxp env (fuel + 4) i s
        = extractLoop maxp env (fuel + 3) (i + 1)
          (LoopState.mk s.data s.extractedIds ((env i).2) 0 1) :=
      extractLoop_inr maxp env (fuel + 3) i s _ hstep0
    have e1 : extractLoop maxp env (fuel + 3) (i + 1)
          (LoopState.mk s.data s.extractedIds ((env i).2) 0 1)
        = extractLoop maxp env (fuel + 2) (i + 2)
          (LoopState.mk s.data s.extractedIds ((env (i + 1)).2) 0 2) :=
      extractLoop_inr maxp env (fuel + 2) (i + 1) _ _ hstep1
    have e2 : extractLoop maxp env (fuel + 2) (i + 2)
          (LoopState.mk s.data s.extractedIds ((env (i + 1)).2) 0 2)
        = extractLoop maxp env (fuel + 1) (i + 3)
          (LoopState.mk s.data s.extractedIds ((env (i + 2)).2) 0 3) :=
      extractLoop_inr maxp env (fuel + 1) (i + 2) _ _ hstep2
    have e3 : extractLoop maxp env (fuel + 1) (i + 3)
          (LoopState.mk s.data s.extractedIds ((env (i + 2)).2) 0 3)
        = .finished (LoopState.mk s.data s.extractedIds ((env (i + 2)).2) 0 3) false :=
      extractLoop_inl maxp env fuel (i + 3) _ _ hstep3
    rw [e0, e1, e2, e3]
  rw [hrun]
  exact ⟨rfl, rfl⟩

/-- Witness for C6: ceiling 7, empty batches over a growing page, starting
from the loop entry state. -/
theorem converged_not_max_attempts_witness :
    (extractLoop 7 growEmptyEnv 4 0 (initState [] 0)).converged = true ∧
      (extractLoop 7 growEmptyEnv 4 0 (initState [] 0)).maxAttemptsExceeded = false :=
  converged_not_max_attempts 7 0 0 growEmptyEnv (initState [] 0) rfl (by decide)
    (Or.inr (by decide)) (by decide) (by decide) (by decide) (by decide) (by decide)
    (by decide)

/-- Claim C7 (amended): ceiling 5 and a first batch of nine complete cards
with pairwise-distinct raw ids, each of whose extracted fields cleans
without error: the merge accepts exactly five records (the other four
candidates are discarded) and the loop immediately breaks on the limit.
The cleanability hypothesis is needed: a field that survives the JS trim
but is all-whitespace to Python makes `_clean_value` raise instead (see
the counterexample). -/
theorem nine_cards_ceiling_five (env : Nat → List RawCard × Nat) (h0 fuel : Nat)
    (h9 : (extractView (env 0).1).length = 9)
    (hnd : ((extractView (env 0).1).map Product.id).Nodup)
    (hclean : ∀ p ∈ extractView (env 0).1, (cleanProduct p).isSome = true) :
    ∃ s : LoopState, extractLoop 5 env (fuel + 1) 0 (initState [] h0) = .finished s true ∧
      s.data.length = 5 := by
  obtain ⟨⟨d', i'⟩, hmerge⟩ := mergeBatch_isSome 5 (extractView (env 0).1) [] []
    (fun p hp => Option.isSome_iff_exists.mp (hclean p hp))
  have hlow := mergeBatch_lower 5 (by decide) _ _ _ _ _ hmerge
  have hle := mergeBatch_le 5 (by decide) _ _ _ _ _ (by simp) hmerge
  have hidlen := mergeBatch_ids_length 5 _ _ _ _ _ hmerge
  have hcnt := countP_contains_le (extractView (env 0).1) i' hnd
  have hadd := countP_not_add (fun c => i'.contains c.id) (extractView (env 0).1)
  have hd5 : d'.length = 5 := by
    rw [h9] at hadd
    simp only [List.length_nil, Nat.zero_add, Nat.add_zero] at hlow hidlen
    rcases Nat.le_total 5 ((extractView (env 0).1).countP (fun c => !(i'.contains c.id)))
      with hc | hc
    · rw [min_eq_left hc] at hlow
      omega
    · rw [min_eq_right hc] at hlow
      omega
  refine ⟨LoopState.mk d' i' h0 0 0, ?_, hd5⟩
  have hstep : loopStep 5 env 0 (initState [] h0)
      = .inl (.finished (LoopState.mk d' i' h0 0 0) true) := by
    have hc3 : (5:Nat) ≠ 0 ∧ 5 ≤ d'.length := ⟨by decide, by omega⟩
    have hc4 : d' ≠ [] := by
      intro he
      rw [he] at hd5
      simp at hd5
    simp [loopStep, initState, hmerge, hc3, hc4]
  exact extractLoop_inl 5 env fuel 0 (initState [] h0) _ hstep

/-- Witness for C7: the nine concrete cards of `nineEnv`. -/
theorem nine_cards_ceiling_five_witness :
    ∃ s : LoopState, extractLoop 5 nineEnv 1 0 (initState [] 4) = .finished s true ∧
      s.data.length = 5 :=
  nine_cards_ceiling_five nineEnv 4 0 (by decide) (by decide) (by decide)

/-- Counterexample to claim C7 as stated: nine unique complete cards whose
first card's price is the string `0x1c`-space-`0x1c`.  JavaScript's trim
leaves it nonempty, so the card is complete and pushed; Python's
`_clean_value` sees a space, splits to no tokens and raises `IndexError`:
the run aborts with zero records instead of accepting five and stopping on
the limit. -/
theorem nine_cards_cleaning_raises :
    extractLoop 5 badNineEnv 3 0 (initState [] 4) = .raised (initState [] 4) ∧
      (extractView (badNineEnv 0).1).length = 9 ∧
      ((extractView (badNineEnv 0).1).map Product.id).Nodup :=
  ⟨by decide, by decide, by decide⟩

/-- Witness for C9: a logged-in run whose grid stays hidden. -/
theorem grid_timeout_keeps_results_witness :
    runModel gridHiddenEnv none none [] 5 3 = some (.ok []) ∧
      (extractProductData gridHiddenEnv.gridVisible 5 gridHiddenEnv.views
        gridHiddenEnv.initialHeight 3 []).finalData = [] :=
  ⟨(grid_timeout_keeps_results gridHiddenEnv none none [] 5 3 rfl (by decide)
      (by decide)).1,
   (grid_timeout_keeps_results gridHiddenEnv none none [] 5 3 rfl (by decide)
      (by decide)).2 []⟩

end DataExtraction
